import Mathlib

/-!
Verification of the tuple primitives of `src/primitives.rs`
(ray-trace-challenge).

The Rust code works on `f64`. We embed `f64` as `F64`: either `nan` or a
finite rational. Arithmetic is exact on the finite fragment and propagates
`nan`, and any comparison involving `nan` is false — matching IEEE-754
semantics on the inputs the claims are about (no rounding, overflow or
signed-zero distinction is modelled; ℚ identifies `-0.0` with `0.0`).
Where the infinite `f64` values make a difference — self-comparison under
the epsilon equality, since `∞ - ∞` is `nan` — the extended model `F64x`
further below also represents them.
-/

/-- Model of a Rust `f64` value: `nan` or a finite rational. -/
inductive F64 where
  | nan : F64
  | fin : ℚ → F64
deriving DecidableEq, Repr

/-- `f64` addition: exact on finite values, `nan` propagates. -/
def F64.add : F64 → F64 → F64
  | .fin a, .fin b => .fin (a + b)
  | _, _ => .nan

/-- `f64` subtraction: exact on finite values, `nan` propagates. -/
def F64.sub : F64 → F64 → F64
  | .fin a, .fin b => .fin (a - b)
  | _, _ => .nan

/-- `f64` unary negation (the Rust `-x`): `nan` stays `nan`. -/
def F64.neg : F64 → F64
  | .nan => .nan
  | .fin a => .fin (-a)

/-- `f64::abs`: `nan` stays `nan`. -/
def F64.abs : F64 → F64
  | .nan => .nan
  | .fin a => .fin |a|

/-- Comparison of an `f64` against a finite rational bound:
`nan < e` is false, matching IEEE comparisons. -/
def F64.ltQ : F64 → ℚ → Bool
  | .nan, _ => false
  | .fin a, e => decide (a < e)

/-- The `EPSILON` constant of the free function `is_equal`
(`0.00001` in the source). -/
def EPSILON : ℚ := 1 / 100000

/-- The free function `is_equal(a: &f64, b: &f64) -> bool`:
`(a - b).abs() < EPSILON`. -/
def is_equal (a b : F64) : Bool := (F64.sub a b).abs.ltQ EPSILON

/-- Alias for the free `is_equal`, needed because inside `Tuple.is_equal`
the bare name would resolve to the method itself. -/
def eqEps (a b : F64) : Bool := is_equal a b

/-- The `TupleKind` enum of the source. -/
inductive TupleKind where
  | None : TupleKind
  | Point : TupleKind
  | Vector : TupleKind
  | Color : TupleKind
deriving DecidableEq, Repr

/-- The `Tuple` struct: a kind and four `f64` elements indexed `0..3`. -/
structure Tuple where
  kind : TupleKind
  elements : Fin 4 → F64
deriving DecidableEq

/-- Builds the 4-element array `[e0, e1, e2, e3]`. -/
def mk4 (e0 e1 e2 e3 : F64) : Fin 4 → F64 :=
  fun i => match i with
  | 0 => e0
  | 1 => e1
  | 2 => e2
  | 3 => e3

/-- `Tuple::new`: arbitrary four elements, kind `None`. -/
def Tuple.new (e0 e1 e2 e3 : F64) : Tuple :=
  { kind := TupleKind.None, elements := mk4 e0 e1 e2 e3 }

/-- `Tuple::new_point`: three elements, fourth `0.0`, kind `Point`. -/
def Tuple.new_point (e0 e1 e2 : F64) : Tuple :=
  { kind := TupleKind.Point, elements := mk4 e0 e1 e2 (.fin 0) }

/-- `Tuple::new_vector`: three elements, fourth `0.0`, kind `Vector`. -/
def Tuple.new_vector (e0 e1 e2 : F64) : Tuple :=
  { kind := TupleKind.Vector, elements := mk4 e0 e1 e2 (.fin 0) }

/-- `Tuple::new_color`: three elements, fourth `0.0`, kind `Color`. -/
def Tuple.new_color (e0 e1 e2 : F64) : Tuple :=
  { kind := TupleKind.Color, elements := mk4 e0 e1 e2 (.fin 0) }

/-- `Tuple::is_equal`: same kind and all four element pairs pass the
epsilon test of the free `is_equal`. -/
def Tuple.is_equal (self other : Tuple) : Bool :=
  decide (self.kind = other.kind)
    && eqEps (self.elements 0) (other.elements 0)
    && eqEps (self.elements 1) (other.elements 1)
    && eqEps (self.elements 2) (other.elements 2)
    && eqEps (self.elements 3) (other.elements 3)

/-- `Tuple::add`: `None` on point+point, otherwise element-wise sum with
kind `Vector` when both operands are vectors, `Point` otherwise. -/
def Tuple.add (self other : Tuple) : Option Tuple :=
  if self.kind = TupleKind.Point ∧ other.kind = TupleKind.Point then
    none
  else
    some
      { kind :=
          if self.kind = TupleKind.Vector ∧ other.kind = TupleKind.Vector then
            TupleKind.Vector
          else
            TupleKind.Point
        elements := fun i => F64.add (self.elements i) (other.elements i) }

/-- `Tuple::sub`: `None` on vector−point, otherwise element-wise
difference with kind `Point` when `self` is a point and `other` a vector,
`Vector` otherwise. -/
def Tuple.sub (self other : Tuple) : Option Tuple :=
  if self.kind = TupleKind.Vector ∧ other.kind = TupleKind.Point then
    none
  else
    some
      { kind :=
          if self.kind = TupleKind.Point ∧ other.kind = TupleKind.Vector then
            TupleKind.Point
          else
            TupleKind.Vector
        elements := fun i => F64.sub (self.elements i) (other.elements i) }

/-- `Tuple::neg`: same kind, every element negated. -/
def Tuple.neg (self : Tuple) : Tuple :=
  { kind := self.kind, elements := fun i => (self.elements i).neg }

/-! ### Helper lemmas and concrete values -/

/-- A quantifier over `Fin 4` is the conjunction of the four instances. -/
lemma forall_fin4 (P : Fin 4 → Prop) :
    (∀ i, P i) ↔ P 0 ∧ P 1 ∧ P 2 ∧ P 3 := by
  constructor
  · intro h; exact ⟨h 0, h 1, h 2, h 3⟩
  · rintro ⟨h0, h1, h2, h3⟩ i
    fin_cases i <;> assumption

/-- Spec-side closeness of two `f64` values: both finite and within the
fixed epsilon of each other. -/
def compClose (x y : F64) : Prop :=
  ∃ p q : ℚ, x = F64.fin p ∧ y = F64.fin q ∧ |p - q| < EPSILON

/-- The element-level epsilon test holds exactly on close finite pairs. -/
lemma eqEps_iff (x y : F64) : eqEps x y = true ↔ compClose x y := by
  cases x with
  | nan => simp [eqEps, is_equal, F64.sub, F64.abs, F64.ltQ, compClose]
  | fin p =>
    cases y with
    | nan => simp [eqEps, is_equal, F64.sub, F64.abs, F64.ltQ, compClose]
    | fin q =>
      simp [eqEps, is_equal, F64.sub, F64.abs, F64.ltQ, compClose]

/-- The element-level epsilon test is symmetric. -/
lemma eqEps_symm (x y : F64) : eqEps x y = eqEps y x := by
  cases x <;> cases y <;>
    simp [eqEps, is_equal, F64.sub, F64.abs, F64.ltQ, abs_sub_comm]

/-- The element-level epsilon test holds on equal finite values. -/
lemma eqEps_refl_fin (q : ℚ) : eqEps (F64.fin q) (F64.fin q) = true := by
  simp [eqEps, is_equal, F64.sub, F64.abs, F64.ltQ, EPSILON]

/-- `f64` addition commutes (also on `nan`). -/
lemma F64.add_comm (x y : F64) : F64.add x y = F64.add y x := by
  cases x <;> cases y <;> simp [F64.add]
  exact Rat.add_comm _ _

/-- A concrete vector used as a witness input. -/
def wV : Tuple := Tuple.new_vector (.fin 3) (.fin (-2)) (.fin 5)

/-- A concrete point used as a witness input. -/
def wP : Tuple := Tuple.new_point (.fin (-2)) (.fin 3) (.fin 1)

/-- The concrete sum of `wV` and `wP`, a point. -/
def wSum : Tuple :=
  { kind := TupleKind.Point
    elements := mk4 (.fin 1) (.fin 1) (.fin 6) (.fin 0) }

/-- A concrete tuple with a `nan` first component. -/
def tNaN : Tuple := Tuple.new .nan (.fin 0) (.fin 0) (.fin 0)

/-! ### Claims -/

/-- C1: `Tuple::add` returns `None` exactly when both operands are points;
every other kind combination yields `Some` tuple whose components are the
element-wise sums and whose kind is `Vector` when both operands are
vectors, `Point` in every other valid case. -/
theorem add_characterisation (a b : Tuple) :
    (a.add b = none ↔ a.kind = TupleKind.Point ∧ b.kind = TupleKind.Point) ∧
    ∀ r, a.add b = some r →
      (∀ i, r.elements i = F64.add (a.elements i) (b.elements i)) ∧
      r.kind = (if a.kind = TupleKind.Vector ∧ b.kind = TupleKind.Vector
                then TupleKind.Vector else TupleKind.Point) := by
  by_cases h : a.kind = TupleKind.Point ∧ b.kind = TupleKind.Point
  · constructor
    · simp [Tuple.add, h]
    · intro r hr
      simp [Tuple.add, h] at hr
  · constructor
    · simp [Tuple.add, h]
    · intro r hr
      simp [Tuple.add, h] at hr
      subst hr
      exact ⟨fun i => rfl, rfl⟩

/-- C1 witness: evaluating the characterisation on a concrete
vector-plus-point addition. -/
theorem add_characterisation_witness :
    wSum.elements 0 = F64.add (wV.elements 0) (wP.elements 0) ∧
    wSum.kind = (if wV.kind = TupleKind.Vector ∧ wP.kind = TupleKind.Vector
                 then TupleKind.Vector else TupleKind.Point) := by
  have h : wV.add wP = some wSum := by
    simp [wV, wP, wSum, Tuple.new_vector, Tuple.new_point, Tuple.add]
    funext i
    fin_cases i <;> simp [mk4, F64.add] <;> norm_num
  exact ⟨((add_characterisation wV wP).2 wSum h).1 0,
    ((add_characterisation wV wP).2 wSum h).2⟩

/-- C2: `Tuple::sub` returns `None` exactly when `self` is a vector and
`other` a point; every other kind combination yields `Some` tuple whose
components are the element-wise differences and whose kind is `Point` when
`self` is a point and `other` a vector, `Vector` in every other valid
case. -/
theorem sub_characterisation (a b : Tuple) :
    (a.sub b = none ↔ a.kind = TupleKind.Vector ∧ b.kind = TupleKind.Point) ∧
    ∀ r, a.sub b = some r →
      (∀ i, r.elements i = F64.sub (a.elements i) (b.elements i)) ∧
      r.kind = (if a.kind = TupleKind.Point ∧ b.kind = TupleKind.Vector
                then TupleKind.Point else TupleKind.Vector) := by
  by_cases h : a.kind = TupleKind.Vector ∧ b.kind = TupleKind.Point
  · constructor
    · simp [Tuple.sub, h]
    · intro r hr
      simp [Tuple.sub, h] at hr
  · constructor
    · simp [Tuple.sub, h]
    · intro r hr
      simp [Tuple.sub, h] at hr
      subst hr
      exact ⟨fun i => rfl, rfl⟩

/-- The concrete difference of `wP` and `wV`, a point. -/
def wDiff : Tuple :=
  { kind := TupleKind.Point
    elements := mk4 (.fin (-5)) (.fin 5) (.fin (-4)) (.fin 0) }

/-- C2 witness: evaluating the characterisation on a concrete
point-minus-vector subtraction. -/
theorem sub_characterisation_witness :
    wDiff.elements 0 = F64.sub (wP.elements 0) (wV.elements 0) ∧
    wDiff.kind = (if wP.kind = TupleKind.Point ∧ wV.kind = TupleKind.Vector
                  then TupleKind.Point else TupleKind.Vector) := by
  have h : wP.sub wV = some wDiff := by
    simp [wP, wV, wDiff, Tuple.new_vector, Tuple.new_point, Tuple.sub]
    funext i
    fin_cases i <;> simp [mk4, F64.sub] <;> norm_num
  exact ⟨((sub_characterisation wP wV).2 wDiff h).1 0,
    ((sub_characterisation wP wV).2 wDiff h).2⟩

/-- C3: `Tuple::is_equal` is true exactly when the kinds agree and every
one of the four component pairs is finite and within the fixed epsilon
`0.00001` in absolute difference. -/
theorem is_equal_characterisation (a b : Tuple) :
    a.is_equal b = true ↔
      a.kind = b.kind ∧
      ∀ i : Fin 4, compClose (a.elements i) (b.elements i) := by
  rw [forall_fin4]
  simp [Tuple.is_equal, eqEps_iff, and_assoc]

/-- C4 counterexample: reflexivity fails on a tuple holding a `nan`
component, since `nan - nan` is `nan` and `nan < EPSILON` is false. -/
theorem is_equal_refl_fails_on_nan : tNaN.is_equal tNaN = false := by
  simp [tNaN, Tuple.new, Tuple.is_equal, mk4, eqEps, is_equal, F64.sub,
    F64.abs, F64.ltQ]

/-- Extended model of `f64` that, unlike `F64`, also represents the two
infinite values: `nan`, `inf` for positive infinity, `negInf` for
negative infinity, or a finite rational. Non-finite inputs make a
difference to `is_equal` (any `x - x` with non-finite `x` is `nan`), so
the equality claims about non-finite tuples are settled over this
model. -/
inductive F64x where
  | nan : F64x
  | inf : F64x
  | negInf : F64x
  | fin : ℚ → F64x
deriving DecidableEq

/-- `f64` subtraction on the extended model, following IEEE-754: `nan`
propagates, `∞ - ∞` and `(-∞) - (-∞)` are `nan`, an infinite operand
otherwise dominates (with the sign flipped on the right), and finite
values subtract exactly. -/
def F64x.sub : F64x → F64x → F64x
  | .nan, _ => .nan
  | _, .nan => .nan
  | .inf, .inf => .nan
  | .inf, _ => .inf
  | .negInf, .negInf => .nan
  | .negInf, _ => .negInf
  | .fin _, .inf => .negInf
  | .fin _, .negInf => .inf
  | .fin a, .fin b => .fin (a - b)

/-- `f64::abs` on the extended model: both infinities map to `+∞`. -/
def F64x.abs : F64x → F64x
  | .nan => .nan
  | .inf => .inf
  | .negInf => .inf
  | .fin a => .fin |a|

/-- Comparison against a finite rational bound on the extended model:
`nan` and `+∞` compare false, `-∞` compares true, a finite value is
decided exactly. -/
def F64x.ltQ : F64x → ℚ → Bool
  | .nan, _ => false
  | .inf, _ => false
  | .negInf, _ => true
  | .fin a, e => decide (a < e)

/-- The free `is_equal` over the extended model: `(a - b).abs() <
EPSILON`. -/
def is_equalx (a b : F64x) : Bool := (F64x.sub a b).abs.ltQ EPSILON

/-- The `Tuple` struct over the extended float model. -/
structure Tuplex where
  kind : TupleKind
  elements : Fin 4 → F64x
deriving DecidableEq

/-- `Tuple::is_equal` over the extended float model: same conjunction as
`Tuple.is_equal`. -/
def Tuplex.is_equal (self other : Tuplex) : Bool :=
  decide (self.kind = other.kind)
    && is_equalx (self.elements 0) (other.elements 0)
    && is_equalx (self.elements 1) (other.elements 1)
    && is_equalx (self.elements 2) (other.elements 2)
    && is_equalx (self.elements 3) (other.elements 3)

/-- The extended element-level test is symmetric in all sixteen
constructor combinations. -/
lemma is_equalx_symm (x y : F64x) : is_equalx x y = is_equalx y x := by
  cases x <;> cases y <;>
    simp [is_equalx, F64x.sub, F64x.abs, F64x.ltQ, abs_sub_comm]

/-- An extended element passes the test against itself exactly when it is
finite: `x - x` is `nan` for `nan` and for both infinities. -/
lemma is_equalx_self_iff (x : F64x) :
    is_equalx x x = true ↔ ∃ q : ℚ, x = F64x.fin q := by
  cases x with
  | nan => simp [is_equalx, F64x.sub, F64x.abs, F64x.ltQ]
  | inf => simp [is_equalx, F64x.sub, F64x.abs, F64x.ltQ]
  | negInf => simp [is_equalx, F64x.sub, F64x.abs, F64x.ltQ]
  | fin q =>
    simp [is_equalx, F64x.sub, F64x.abs, F64x.ltQ, EPSILON]

/-- Each of the four extended element tests passes when the tuple test
passes. -/
lemma is_equalx_elements_true {a b : Tuplex} (h : a.is_equal b = true)
    (i : Fin 4) : is_equalx (a.elements i) (b.elements i) = true := by
  unfold Tuplex.is_equal at h
  rw [Bool.and_eq_true, Bool.and_eq_true, Bool.and_eq_true,
    Bool.and_eq_true] at h
  fin_cases i
  · exact h.1.1.1.2
  · exact h.1.1.2
  · exact h.1.2
  · exact h.2

/-- A concrete extended tuple all of whose components are `+∞`. -/
def tInf : Tuplex := { kind := TupleKind.None, elements := fun _ => F64x.inf }

/-- Reflexivity also fails on infinite components: `∞ - ∞` is `nan`. -/
lemma is_equal_refl_fails_on_inf : tInf.is_equal tInf = false := by
  simp [tInf, Tuplex.is_equal, is_equalx, F64x.sub, F64x.abs, F64x.ltQ]

/-- C4 (amended): over the float model that includes the infinite values,
`is_equal` is symmetric on all tuples, and a tuple equals itself exactly
when all four of its components are finite — a `nan` or infinite
component makes the self-comparison false. -/
theorem is_equal_refl_iff_finite_symm :
    (∀ t : Tuplex, t.is_equal t = true ↔
      ∀ i, ∃ q : ℚ, t.elements i = F64x.fin q) ∧
    ∀ a b : Tuplex, a.is_equal b = b.is_equal a := by
  constructor
  · intro t
    constructor
    · intro h i
      exact (is_equalx_self_iff _).mp (is_equalx_elements_true h i)
    · intro h
      have e : ∀ i : Fin 4, is_equalx (t.elements i) (t.elements i) = true :=
        fun i => (is_equalx_self_iff _).mpr (h i)
      simp [Tuplex.is_equal, e 0, e 1, e 2, e 3]
  · intro a b
    have k : (decide (a.kind = b.kind)) = (decide (b.kind = a.kind)) := by
      simp [eq_comm]
    simp only [Tuplex.is_equal]
    rw [k, is_equalx_symm (a.elements 0) (b.elements 0),
      is_equalx_symm (a.elements 1) (b.elements 1),
      is_equalx_symm (a.elements 2) (b.elements 2),
      is_equalx_symm (a.elements 3) (b.elements 3)]

/-- A concrete tuple with first component `0`. -/
def tA : Tuple := Tuple.new (.fin 0) (.fin 0) (.fin 0) (.fin 0)

/-- A concrete tuple with first component `0.000009`, under the epsilon
away from both `tA` and `tC`. -/
def tB : Tuple := Tuple.new (.fin (9 / 1000000)) (.fin 0) (.fin 0) (.fin 0)

/-- A concrete tuple with first component `0.000018`, a full epsilon and
more away from `tA`. -/
def tC : Tuple := Tuple.new (.fin (18 / 1000000)) (.fin 0) (.fin 0) (.fin 0)

/-- C5: `is_equal` is not transitive — three tuples spaced by just under
the epsilon form a counterexample chain. -/
theorem is_equal_not_transitive :
    ∃ a b c : Tuple, a.is_equal b = true ∧ b.is_equal c = true ∧
      a.is_equal c = false := by
  refine ⟨tA, tB, tC, ?_, ?_, ?_⟩
  · simp [tA, tB, Tuple.new, Tuple.is_equal, mk4, eqEps, is_equal, F64.sub,
      F64.abs, F64.ltQ, EPSILON]
    rw [abs_of_nonneg (by norm_num)]
    norm_num
  · simp [tB, tC, Tuple.new, Tuple.is_equal, mk4, eqEps, is_equal, F64.sub,
      F64.abs, F64.ltQ, EPSILON]
    rw [abs_of_nonpos (by norm_num)]
    norm_num
  · simp [tA, tC, Tuple.new, Tuple.is_equal, mk4, eqEps, is_equal, F64.sub,
      F64.abs, F64.ltQ, EPSILON]
    rw [abs_of_nonneg (by norm_num)]
    norm_num

/-- C6: on every valid (not point plus point) pair, `add` succeeds in both
orders and the two results agree on all components and on the kind. -/
theorem add_commutative_on_valid (a b : Tuple)
    (h : ¬(a.kind = TupleKind.Point ∧ b.kind = TupleKind.Point)) :
    (a.add b).isSome = true ∧ (b.add a).isSome = true ∧
    ∀ r s, a.add b = some r → b.add a = some s →
      (∀ i, r.elements i = s.elements i) ∧ r.kind = s.kind := by
  have h2 : ¬(b.kind = TupleKind.Point ∧ a.kind = TupleKind.Point) :=
    fun hc => h ⟨hc.2, hc.1⟩
  refine ⟨?_, ?_, ?_⟩
  · simp [Tuple.add, h]
  · simp [Tuple.add, h2]
  · intro r s hr hs
    simp [Tuple.add, h] at hr
    simp [Tuple.add, h2] at hs
    subst hr
    subst hs
    constructor
    · intro i
      exact F64.add_comm _ _
    · by_cases hv : a.kind = TupleKind.Vector ∧ b.kind = TupleKind.Vector
      · simp [hv, And.intro hv.2 hv.1]
      · have hv2 : ¬(b.kind = TupleKind.Vector ∧ a.kind = TupleKind.Vector) :=
          fun hc => hv ⟨hc.2, hc.1⟩
        simp [hv, hv2]

/-- C6 witness: both orders of a concrete vector-point addition
succeed. -/
theorem add_commutative_on_valid_witness :
    (wV.add wP).isSome = true ∧ (wP.add wV).isSome = true :=
  ⟨(add_commutative_on_valid wV wP (by decide)).1,
   (add_commutative_on_valid wV wP (by decide)).2.1⟩

/-- C7: `Tuple::neg` is total (it returns a `Tuple`, never an absent
result), keeps the kind, and flips the sign of every component — a `nan`
component stays `nan`, a finite component is negated exactly. -/
theorem neg_total_spec (t : Tuple) :
    t.neg.kind = t.kind ∧
    ∀ i, (t.elements i = F64.nan ∧ t.neg.elements i = F64.nan) ∨
      ∃ q : ℚ, t.elements i = F64.fin q ∧ t.neg.elements i = F64.fin (-q) := by
  refine ⟨rfl, ?_⟩
  intro i
  cases hq : t.elements i with
  | nan => exact Or.inl ⟨rfl, by simp [Tuple.neg, hq, F64.neg]⟩
  | fin q => exact Or.inr ⟨q, rfl, by simp [Tuple.neg, hq, F64.neg]⟩

/-- C8: the three dedicated constructors set the fourth component to
exactly `0.0`, and `add` and `sub` preserve an exactly zero fourth
component whenever they succeed. -/
theorem fourth_component_zero_invariant :
    (∀ e0 e1 e2, (Tuple.new_point e0 e1 e2).elements 3 = F64.fin 0) ∧
    (∀ e0 e1 e2, (Tuple.new_vector e0 e1 e2).elements 3 = F64.fin 0) ∧
    (∀ e0 e1 e2, (Tuple.new_color e0 e1 e2).elements 3 = F64.fin 0) ∧
    (∀ a b r : Tuple, a.elements 3 = F64.fin 0 → b.elements 3 = F64.fin 0 →
      a.add b = some r → r.elements 3 = F64.fin 0) ∧
    (∀ a b r : Tuple, a.elements 3 = F64.fin 0 → b.elements 3 = F64.fin 0 →
      a.sub b = some r → r.elements 3 = F64.fin 0) := by
  refine ⟨fun e0 e1 e2 => rfl, fun e0 e1 e2 => rfl, fun e0 e1 e2 => rfl,
    ?_, ?_⟩
  · intro a b r ha hb hr
    by_cases h : a.kind = TupleKind.Point ∧ b.kind = TupleKind.Point
    · simp [Tuple.add, h] at hr
    · simp [Tuple.add, h] at hr
      subst hr
      simp [ha, hb, F64.add]
  · intro a b r ha hb hr
    by_cases h : a.kind = TupleKind.Vector ∧ b.kind = TupleKind.Point
    · simp [Tuple.sub, h] at hr
    · simp [Tuple.sub, h] at hr
      subst hr
      simp [ha, hb, F64.sub]

/-- C8 witness: the invariant evaluated on a concrete constructor call and
a concrete successful addition. -/
theorem fourth_component_zero_invariant_witness :
    (Tuple.new_point (.fin 4) (.fin (-4)) (.fin 3)).elements 3 = F64.fin 0 ∧
    wSum.elements 3 = F64.fin 0 := by
  have h : wV.add wP = some wSum := by
    simp [wV, wP, wSum, Tuple.new_vector, Tuple.new_point, Tuple.add]
    funext i
    fin_cases i <;> simp [mk4, F64.add] <;> norm_num
  exact ⟨fourth_component_zero_invariant.1 (.fin 4) (.fin (-4)) (.fin 3),
    fourth_component_zero_invariant.2.2.2.1 wV wP wSum (by decide)
      (by decide) h⟩

/-- Each of the four element tests passes when the tuple test passes. -/
lemma is_equal_elements_true {a b : Tuple} (h : a.is_equal b = true)
    (i : Fin 4) : eqEps (a.elements i) (b.elements i) = true := by
  unfold Tuple.is_equal at h
  rw [Bool.and_eq_true, Bool.and_eq_true, Bool.and_eq_true,
    Bool.and_eq_true] at h
  fin_cases i
  · exact h.1.1.1.2
  · exact h.1.1.2
  · exact h.1.2
  · exact h.2

/-- C9: a `nan` component anywhere on either side makes `is_equal` return
false; in particular a tuple holding a `nan` is not equal to itself. -/
theorem is_equal_nan_false (a b : Tuple)
    (h : ∃ i, a.elements i = F64.nan ∨ b.elements i = F64.nan) :
    a.is_equal b = false := by
  obtain ⟨i, hi⟩ := h
  rw [Bool.eq_false_iff]
  intro htrue
  obtain ⟨p, q, hp, hq, _⟩ :=
    (eqEps_iff _ _).mp (is_equal_elements_true htrue i)
  cases hi with
  | inl hl =>
    rw [hl] at hp
    simp at hp
  | inr hr =>
    rw [hr] at hq
    simp at hq

/-- C9 witness: a concrete finite vector compared with a concrete tuple
holding a `nan` component. -/
theorem is_equal_nan_false_witness : wV.is_equal tNaN = false :=
  is_equal_nan_false wV tNaN (by decide)

/-- C10: double negation is the identity on kind and on all components of
every `nan`-free tuple, with exact (not epsilon) component equality. -/
theorem neg_involution (t : Tuple) (h : ∀ i, t.elements i ≠ F64.nan) :
    t.neg.neg.kind = t.kind ∧ ∀ i, t.neg.neg.elements i = t.elements i := by
  refine ⟨rfl, ?_⟩
  intro i
  cases hq : t.elements i with
  | nan => exact absurd hq (h i)
  | fin q => simp [Tuple.neg, hq, F64.neg]

/-- C10 witness: double negation evaluated on a concrete `nan`-free
vector. -/
theorem neg_involution_witness :
    wV.neg.neg.kind = wV.kind ∧ wV.neg.neg.elements 0 = wV.elements 0 :=
  ⟨(neg_involution wV (by decide)).1, (neg_involution wV (by decide)).2 0⟩
